import Mathlib

/-!
Shallow embedding of the `log` package of mikeynap/coreos-baremetal:
a syslog-flavoured logging facade (`Logger`) owning a backend, a prefix
stack and a per-instance operation counter, with severity operations,
prefix push/pop, and the operation wrappers `LogOp` / `LogCmd`.

Modelling conventions:
* Go format strings with their variadic arguments are represented by the
  already-expanded message `String` (Go's `fmt.Sprintf` interpolation is
  orthogonal to every property below).
* The backend (`LoggerOps`) is represented by its kind tag plus a
  parameter `wr : WR` giving, for every backend kind, severity and line,
  the failure indication the corresponding write returns (`none` =
  success).  Every line actually written is also recorded, in order and
  tagged with the backend it went to, in the `trace` field.
* A wrapped action (Go `func() error`) is a state transformer
  `Logger → Option String × Logger`, so nested wrapper invocations and
  logging from inside an action are expressible.
* The operation counter is a Go `int` (64-bit two's complement on the
  targeted platforms) whose increment wraps on overflow; it is modelled
  as its unsigned bit pattern, a `Nat` reduced `% 2^64` at each
  increment, rendered by `int64Hex` exactly as Go's `%x` renders the
  signed value.
-/

/-- The eight syslog severity levels of the `LoggerOps` interface. -/
inductive Severity
  | emerg | alert | crit | err | warning | notice | info | debug
deriving DecidableEq, Repr

/-- Which backend a logger writes through: the system-log backend or the
console (`Stdout`) fallback. -/
inductive BackendKind
  | syslogB | stdoutB
deriving DecidableEq, Repr

/-- The failure indication each backend write returns: given the backend
kind, the severity and the fully formatted line, `none` means the write
succeeded and `some e` that it failed with error `e`. -/
abbrev WR := BackendKind → Severity → String → Option String

/-- One emitted line: the backend it was written to, its severity, and
the fully formatted string handed to the backend. -/
abbrev Line := BackendKind × Severity × String

/-- The `Logger` struct: backend (`ops`), prefix stack, operation
sequence counter; plus the trace of lines written so far (the observable
output, a modelling device standing for the backend's effect).

`opSequenceNum` is a Go `int` — 64-bit two's complement on this
repository's target platforms — whose `++` wraps on overflow. It is
modelled as the unsigned 64-bit bit pattern: a `Nat` kept in
`[0, 2^64)` by reducing `% 2^64` at each increment; patterns at or
above `2^63` stand for the negative values. -/
structure Logger where
  ops : BackendKind
  prefixStack : List String
  opSequenceNum : Nat
  trace : List Line
deriving DecidableEq, Repr

/-- Go `Logger.sprintf`: every prefix-stack entry suffixed with `:`,
followed by the expanded message, joined by single spaces
(`strings.Join(m, " ")`). -/
def Logger.sprintf (l : Logger) (msg : String) : String :=
  String.intercalate " " (l.prefixStack.map (fun pfx => pfx ++ ":") ++ [msg])

/-- Go `Logger.log`: format the message through the prefix stack and hand
it to the backend write of the given severity, propagating the write's
failure indication unchanged. -/
def Logger.log (wr : WR) (sev : Severity) (msg : String) (l : Logger) :
    Option String × Logger :=
  let line := Logger.sprintf l msg
  (wr l.ops sev line, { l with trace := l.trace ++ [(l.ops, sev, line)] })

/-- Go `Logger.Emerg`. -/
def Logger.Emerg (wr : WR) (msg : String) (l : Logger) : Option String × Logger :=
  Logger.log wr Severity.emerg msg l

/-- Go `Logger.Alert`. -/
def Logger.Alert (wr : WR) (msg : String) (l : Logger) : Option String × Logger :=
  Logger.log wr Severity.alert msg l

/-- Go `Logger.Crit`. -/
def Logger.Crit (wr : WR) (msg : String) (l : Logger) : Option String × Logger :=
  Logger.log wr Severity.crit msg l

/-- Go `Logger.Err`. -/
def Logger.Err (wr : WR) (msg : String) (l : Logger) : Option String × Logger :=
  Logger.log wr Severity.err msg l

/-- Go `Logger.Warning`. -/
def Logger.Warning (wr : WR) (msg : String) (l : Logger) : Option String × Logger :=
  Logger.log wr Severity.warning msg l

/-- Go `Logger.Notice`. -/
def Logger.Notice (wr : WR) (msg : String) (l : Logger) : Option String × Logger :=
  Logger.log wr Severity.notice msg l

/-- Go `Logger.Info`. -/
def Logger.Info (wr : WR) (msg : String) (l : Logger) : Option String × Logger :=
  Logger.log wr Severity.info msg l

/-- Go `Logger.Debug`. -/
def Logger.Debug (wr : WR) (msg : String) (l : Logger) : Option String × Logger :=
  Logger.log wr Severity.debug msg l

/-- Go `Logger.PushPrefix`: append the (expanded) label to the end of the
prefix stack. -/
def Logger.PushPrefix (pfx : String) (l : Logger) : Logger :=
  { l with prefixStack := l.prefixStack ++ [pfx] }

/-- Go `Logger.PopPrefix`: on an empty stack, log a debug diagnostic and
return (the write's failure indication is discarded, as in
`l.Debug(...)` used as a statement); otherwise drop the last entry
(`l.prefixStack[:len-1]`). -/
def Logger.PopPrefix (wr : WR) (l : Logger) : Logger :=
  if l.prefixStack.isEmpty then
    ( Logger.Debug wr "popped from empty stack" l).2
  else
    { l with prefixStack := l.prefixStack.dropLast }

/-- Lowercase hexadecimal digit for `n < 16` (the digits Go's `%x` verb
uses). -/
def hexDigit (n : Nat) : Char :=
  if n < 10 then Char.ofNat (48 + n) else Char.ofNat (87 + n)

/-- Lowercase hexadecimal rendering of a natural number, minimal width,
as produced by Go's `fmt.Sprintf("%x", n)` for non-negative `n`. -/
def toHexChars (n : Nat) : List Char :=
  if n < 16 then [hexDigit n]
  else toHexChars (n / 16) ++ [hexDigit (n % 16)]
termination_by n
decreasing_by
  exact Nat.div_lt_self (by omega) (by decide)

/-- `fmt.Sprintf("%x", n)` as a string. -/
def toHex (n : Nat) : String :=
  String.mk (toHexChars n)

/-- Numeric value of a lowercase hexadecimal digit character. -/
def hexVal (c : Char) : Nat :=
  if c.toNat < 97 then c.toNat - 48 else c.toNat - 87

/-- Value of a big-endian string of hexadecimal digit characters. -/
def evalHex (cs : List Char) : Nat :=
  cs.foldl (fun a c => 16 * a + hexVal c) 0

/-- Go's `%x` rendering of a 64-bit two's-complement value given as its
unsigned bit pattern `v < 2^64`: non-negative values (patterns below
`2^63`) print as lowercase hex; negative ones print as a minus sign
followed by the hex of their magnitude `2^64 - v`. -/
def int64Hex (v : Nat) : String :=
  if v < 2 ^ 63 then toHex v else "-" ++ toHex (2 ^ 64 - v)

/-- Go `Logger.logStart`: `l.Info(fmt.Sprintf("[started]  %s", format), a...)`
(note: two spaces after the marker in the source). The write's failure
indication is discarded (the Go call's result is not used). -/
def Logger.logStart (wr : WR) (msg : String) (l : Logger) : Logger :=
  ( Logger.Info wr ("[started]  " ++ msg) l).2

/-- Go `Logger.logFail`: `l.Crit(fmt.Sprintf("[failed]   %s", format), a...)`
(three spaces after the marker in the source). -/
def Logger.logFail (wr : WR) (msg : String) (l : Logger) : Logger :=
  ( Logger.Crit wr ("[failed]   " ++ msg) l).2

/-- Go `Logger.logFinish`: `l.Info(fmt.Sprintf("[finished] %s", format), a...)`
(one space after the marker in the source). -/
def Logger.logFinish (wr : WR) (msg : String) (l : Logger) : Logger :=
  ( Logger.Info wr ("[finished] " ++ msg) l).2

/-- Go `Logger.LogOp`: increment the counter (a wrapping 64-bit `int`,
hence the `% 2^64` on the stored bit pattern), push the synthetic prefix
`op(<hex-id>)` with the counter rendered by `%x`, log the start line,
run the action; on failure log the fail line (`"%s: %v"` of the expanded
message and the error) and return the error, on success log the finish
line and return nil; the deferred `PopPrefix` runs on both exit paths. -/
def Logger.LogOp (wr : WR) (act : Logger → Option String × Logger)
    (msg : String) (l : Logger) : Option String × Logger :=
  let l1 : Logger := { l with opSequenceNum := (l.opSequenceNum + 1) % 2 ^ 64 }
  let l2 := Logger.PushPrefix ("op(" ++ int64Hex l1.opSequenceNum ++ ")") l1
  let l3 := Logger.logStart wr msg l2
  match act l3 with
  | (some e, l4) =>
      (some e, Logger.PopPrefix wr ( Logger.logFail wr (msg ++ ": " ++ e) l4))
  | (none, l4) =>
      (none, Logger.PopPrefix wr ( Logger.logFinish wr msg l4))

/-- A wrapped action that touches no logger state and returns `r`
(`none` = success, `some e` = failure), like a Go `func() error` closure
that does not use the logger. -/
def pureAct (r : Option String) : Logger → Option String × Logger :=
  fun l => (r, l)

/-- An `exec.Cmd` abstracted to what `LogCmd` observes: the resolved
path, the argument vector (`Args`, whose head is conventionally the path
itself), the bytes the process writes to stdout and stderr once run with
captured streams, and the result of `cmd.Run()` (`none` = normal exit,
`some e` = the error's `%v` rendering). -/
structure Cmd where
  path : String
  args : List String
  stdoutData : String
  stderrData : String
  runResult : Option String
deriving DecidableEq, Repr

/-- Go's `%v` rendering of a string slice: elements joined by single
spaces inside brackets. -/
def fmtStrSlice (xs : List String) : String :=
  "[" ++ String.intercalate " " xs ++ "]"

/-- Go's `%q` rendering of a captured output buffer, for buffers holding
printable characters: the text wrapped in double quotes, with any
backslash or double quote escaped. (The full Go verb also escapes
non-printables, which never arise in the claims considered here.) -/
def goQuote (s : String) : String :=
  "\"" ++ String.join (s.data.map (fun c =>
    if c = '"' then "\\\"" else if c = '\\' then "\\\\" else String.singleton c)) ++ "\""

/-- Go `Logger.LogCmd`: wrap running the command as a `LogOp` operation.
The closure logs the path (and the argument tail when present) at debug
severity, captures stdout/stderr into fresh buffers, and on `cmd.Run()`
failure returns `fmt.Errorf("%v: Stdout: %q Stderr: %q", err, stdout,
stderr)`. -/
def Logger.LogCmd (wr : WR) (cmd : Cmd) (msg : String) (l : Logger) :
    Option String × Logger :=
  Logger.LogOp wr (fun l1 =>
    let l2 :=
      if cmd.args.length ≤ 1 then
        ( Logger.Debug wr ("executing: " ++ cmd.path) l1).2
      else
        ( Logger.Debug wr ("executing: " ++ cmd.path ++ " " ++ fmtStrSlice cmd.args.tail) l1).2
    match cmd.runResult with
    | none => (none, l2)
    | some e =>
        (some (e ++ ": Stdout: " ++ goQuote cmd.stdoutData ++ " Stderr: " ++ goQuote cmd.stderrData), l2)) msg l

/-- Go `New`: try `syslog.New(syslog.LOG_DEBUG, "ignition")` — modelled
by its outcome `sysErr` (`none` = opened, `some e` = the open error's
`%v` rendering). On success the syslog backend becomes `ops`; on failure
`Stdout{}` is assigned as `ops` first and only then is
`"unable to open syslog: %v"` logged through the logger's own `Err`
path. -/
def New (wr : WR) (sysErr : Option String) : Logger :=
  match sysErr with
  | none =>
      { ops := BackendKind.syslogB, prefixStack := [], opSequenceNum := 0, trace := [] }
  | some e =>
      let l : Logger :=
        { ops := BackendKind.stdoutB, prefixStack := [], opSequenceNum := 0, trace := [] }
      ( Logger.Err wr ("unable to open syslog: " ++ e) l).2

/-- `n` successive `LogOp` invocations on one logger, each wrapping a
trivially succeeding action with the same message. -/
def runOps (wr : WR) (msg : String) : Nat → Logger → Logger
  | 0, l => l
  | n + 1, l => runOps wr msg n ( Logger.LogOp wr (pureAct none) msg l).2

/-- The two lines one successful `LogOp` invocation with operation id
`k` writes from an empty ambient prefix stack. -/
def opLines (b : BackendKind) (msg : String) (k : Nat) : List Line :=
  [(b, Severity.info, "op(" ++ toHex k ++ "): [started]  " ++ msg),
   (b, Severity.info, "op(" ++ toHex k ++ "): [finished] " ++ msg)]

/-- The lines a list of successful `LogOp` invocations with the given
operation ids writes. -/
def opTrace (b : BackendKind) (msg : String) (ids : List Nat) : List Line :=
  (ids.map (opLines b msg)).flatten

/-- The two lines one successful `LogOp` invocation writes when the
counter's stored bit pattern is `k`, with the id rendered by the signed
`%x` verb (`int64Hex`) — the general, wrap-aware form of `opLines`. -/
def opLinesW (b : BackendKind) (msg : String) (k : Nat) : List Line :=
  [(b, Severity.info, "op(" ++ int64Hex k ++ "): [started]  " ++ msg),
   (b, Severity.info, "op(" ++ int64Hex k ++ "): [finished] " ++ msg)]

/-- A prefix-stack instruction: one `PushPrefix` or one `PopPrefix`. -/
inductive PP
  | push (s : String)
  | pop
deriving DecidableEq, Repr

/-- Run a sequence of push/pop instructions on a logger. -/
def runPP (wr : WR) : List PP → Logger → Logger
  | [], l => l
  | PP.push s :: rest, l => runPP wr rest ( Logger.PushPrefix s l)
  | PP.pop :: rest, l => runPP wr rest ( Logger.PopPrefix wr l)

/-- Specification-side stack semantics on bare label lists: a push
appends its label, a pop removes the most recently appended surviving
label ("pushed labels minus popped ones, in push order"). -/
def stackSpec : List PP → List String → List String
  | [], st => st
  | PP.push s :: rest, st => stackSpec rest (st ++ [s])
  | PP.pop :: rest, st => stackSpec rest st.dropLast

/-- `balancedFrom seq n`: starting from a stack of depth `n`, no prefix
of `seq` pops more than was pushed (every pop hits a non-empty stack). -/
def balancedFrom : List PP → Nat → Bool
  | [], _ => true
  | PP.push _ :: rest, n => balancedFrom rest (n + 1)
  | PP.pop :: rest, n => decide (0 < n) && balancedFrom rest (n - 1)

/-- A backend on which every write succeeds, for concrete runs. -/
def wrOk : WR := fun _ _ _ => none

/-- A backend on which every write fails, for concrete runs. -/
def wrFail : WR := fun _ _ _ => some "write failed"

/-- A fresh logger on the console backend, as a concrete test fixture. -/
def l0 : Logger :=
  { ops := BackendKind.stdoutB, prefixStack := [], opSequenceNum := 0, trace := [] }

/-! ### Helper lemmas: `String.intercalate`, `sprintf`, hexadecimal -/

theorem intercalate_go_append (s : String) :
    ∀ (t : List String) (a b : String),
      String.intercalate.go (a ++ b) s t = a ++ String.intercalate.go b s t := by
  intro t
  induction t with
  | nil => intro a b; rfl
  | cons c cs ih =>
      intro a b
      show String.intercalate.go (a ++ b ++ s ++ c) s cs
        = a ++ String.intercalate.go (b ++ s ++ c) s cs
      simp only [String.append_assoc]
      exact ih a (b ++ (s ++ c))

theorem intercalate_cons_cons (s a b : String) (t : List String) :
    String.intercalate s (a :: b :: t) = (a ++ s) ++ String.intercalate s (b :: t) := by
  show String.intercalate.go (a ++ s ++ b) s t = (a ++ s) ++ String.intercalate.go b s t
  exact intercalate_go_append s t (a ++ s) b

/-- `sprintf` on an empty prefix stack is the message itself. -/
theorem sprintf_nil (b : BackendKind) (c : Nat) (t : List Line) (msg : String) :
    Logger.sprintf ⟨b, [], c, t⟩ msg = msg := rfl

/-- `sprintf` under a single prefix `p` is `p ++ ": " ++ msg`. -/
theorem sprintf_one (b : BackendKind) (p : String) (c : Nat) (t : List Line) (msg : String) :
    Logger.sprintf ⟨b, [p], c, t⟩ msg = p ++ ": " ++ msg := by
  show String.intercalate " " [p ++ ":", msg] = p ++ ": " ++ msg
  rw [intercalate_cons_cons]
  show (p ++ ":") ++ " " ++ msg = p ++ ": " ++ msg
  simp only [String.append_assoc]
  rfl

/-- `sprintf` under two prefixes `p, q` is `p ++ ": " ++ q ++ ": " ++ msg`. -/
theorem sprintf_two (b : BackendKind) (p q : String) (c : Nat) (t : List Line) (msg : String) :
    Logger.sprintf ⟨b, [p, q], c, t⟩ msg = p ++ ": " ++ q ++ ": " ++ msg := by
  show String.intercalate " " [p ++ ":", q ++ ":", msg] = p ++ ": " ++ q ++ ": " ++ msg
  rw [intercalate_cons_cons]
  have h2 : String.intercalate " " [q ++ ":", msg] = q ++ ": " ++ msg :=
    sprintf_one b q c t msg
  rw [h2]
  simp only [String.append_assoc]
  rfl

theorem hexVal_hexDigit : ∀ d, d < 16 → hexVal (hexDigit d) = d := by decide

theorem evalHex_append (xs : List Char) (c : Char) :
    evalHex (xs ++ [c]) = 16 * evalHex xs + hexVal c := by
  simp [evalHex, List.foldl_append]

theorem evalHex_toHexChars (n : Nat) : evalHex (toHexChars n) = n := by
  induction n using Nat.strong_induction_on with
  | _ n ih =>
    rw [toHexChars]
    by_cases h : n < 16
    · simp only [h, if_true]
      show evalHex [hexDigit n] = n
      simp [evalHex]
      exact hexVal_hexDigit n h
    · simp only [h, if_false]
      rw [evalHex_append, ih (n / 16) (Nat.div_lt_self (by omega) (by decide))]
      rw [hexVal_hexDigit (n % 16) (Nat.mod_lt n (by decide))]
      omega

theorem toHexChars_injective : Function.Injective toHexChars := by
  intro m n h
  have hm := evalHex_toHexChars m
  rw [h, evalHex_toHexChars n] at hm
  exact hm.symm

theorem toHex_injective : Function.Injective toHex := by
  intro m n h
  apply toHexChars_injective
  have : (toHex m).data = (toHex n).data := by rw [h]
  exact this

/-- Below the overflow threshold the signed rendering agrees with the
plain hex rendering. -/
theorem int64Hex_eq_toHex (v : Nat) (h : v < 2 ^ 63) : int64Hex v = toHex v := by
  unfold int64Hex
  rw [if_pos h]

/-- An increment that stays below the overflow threshold does not wrap. -/
theorem wrap_eq_of_lt (v : Nat) (h : v < 2 ^ 63) : v % 2 ^ 64 = v :=
  Nat.mod_eq_of_lt (by omega)


/-! ### Helper lemmas: single `LogOp` invocations -/

/-- One successful `LogOp` on an empty ambient prefix stack, in the
general wrap-aware form: the stored counter becomes `(c + 1) % 2^64` and
exactly the started/finished pair for that bit pattern is written. -/
theorem LogOp_pure_none_wrap (wr : WR) (msg : String) (b : BackendKind)
    (c : Nat) (t : List Line) :
    Logger.LogOp wr (pureAct none) msg ⟨b, [], c, t⟩ =
      (none, ⟨b, [], (c + 1) % 2 ^ 64, t ++ opLinesW b msg ((c + 1) % 2 ^ 64)⟩) := by
  show (none, Logger.PopPrefix wr ( Logger.logFinish wr msg
      ( Logger.logStart wr msg
        ⟨b, ["op(" ++ int64Hex ((c + 1) % 2 ^ 64) ++ ")"], (c + 1) % 2 ^ 64, t⟩)))
    = (none, (⟨b, [], (c + 1) % 2 ^ 64, t ++ opLinesW b msg ((c + 1) % 2 ^ 64)⟩ : Logger))
  simp only [Logger.logStart, Logger.logFinish, Logger.Info, Logger.log,
    Logger.PopPrefix, sprintf_one, opLinesW]
  simp [String.append_assoc, List.append_assoc]
  exact ⟨rfl, rfl⟩

/-- One successful `LogOp` on an empty ambient prefix stack, below the
counter's overflow threshold: the counter advances by one and exactly
the started/finished pair for id `c + 1` is written. -/
theorem LogOp_pure_none (wr : WR) (msg : String) (b : BackendKind) (c : Nat)
    (t : List Line) (h : c + 1 < 2 ^ 63) :
    Logger.LogOp wr (pureAct none) msg ⟨b, [], c, t⟩ =
      (none, ⟨b, [], c + 1, t ++ opLines b msg (c + 1)⟩) := by
  rw [LogOp_pure_none_wrap, wrap_eq_of_lt (c + 1) h]
  simp only [opLinesW, opLines, int64Hex_eq_toHex (c + 1) h]

/-- One successful `LogOp` under one ambient prefix `p`, below the
counter's overflow threshold: both lines carry `p` and then the
synthetic op prefix, in that order. -/
theorem LogOp_pure_none_one (wr : WR) (msg : String) (b : BackendKind) (p : String)
    (c : Nat) (t : List Line) (h : c + 1 < 2 ^ 63) :
    Logger.LogOp wr (pureAct none) msg ⟨b, [p], c, t⟩ =
      (none, ⟨b, [p], c + 1, t ++
        [(b, Severity.info, p ++ ": op(" ++ toHex (c + 1) ++ "): [started]  " ++ msg),
         (b, Severity.info, p ++ ": op(" ++ toHex (c + 1) ++ "): [finished] " ++ msg)]⟩) := by
  show (none, Logger.PopPrefix wr ( Logger.logFinish wr msg
      ( Logger.logStart wr msg
        ⟨b, [p, "op(" ++ int64Hex ((c + 1) % 2 ^ 64) ++ ")"], (c + 1) % 2 ^ 64, t⟩)))
    = _
  rw [wrap_eq_of_lt (c + 1) h, int64Hex_eq_toHex (c + 1) h]
  simp only [Logger.logStart, Logger.logFinish, Logger.Info, Logger.log,
    Logger.PopPrefix, sprintf_two]
  simp [String.append_assoc, List.append_assoc]
  exact ⟨rfl, rfl⟩

/-- `LogOp` around an action that ignores the logger returns exactly the
action's result, whatever the backend write results are. -/
theorem LogOp_pure_fst (wr : WR) (r : Option String) (msg : String) (l : Logger) :
    ( Logger.LogOp wr (pureAct r) msg l).1 = r := by
  cases r with
  | none => rfl
  | some e => rfl

/-- `LogOp` around an action that ignores the logger restores the prefix
stack on both exit paths. -/
theorem LogOp_pure_prefixStack (wr : WR) (r : Option String) (msg : String) (l : Logger) :
    ( Logger.LogOp wr (pureAct r) msg l).2.prefixStack = l.prefixStack := by
  cases r with
  | none =>
      show ( Logger.PopPrefix wr ( Logger.logFinish wr msg _)).prefixStack = l.prefixStack
      simp [Logger.PopPrefix, Logger.logFinish, Logger.Info, Logger.log,
        Logger.PushPrefix, Logger.logStart]
  | some e =>
      show ( Logger.PopPrefix wr ( Logger.logFail wr (msg ++ ": " ++ e) _)).prefixStack
        = l.prefixStack
      simp [Logger.PopPrefix, Logger.logFail, Logger.Crit, Logger.log,
        Logger.PushPrefix, Logger.logStart, Logger.Info]

/-- Iterating successful `LogOp` invocations from counter `c`, with the
counter staying below the overflow threshold throughout, writes the
started/finished pairs for ids `c+1, …, c+n`, in order. -/
theorem runOps_trace (wr : WR) (msg : String) (b : BackendKind) :
    ∀ (n c : Nat) (t : List Line), c + n < 2 ^ 63 →
      runOps wr msg n ⟨b, [], c, t⟩ =
        ⟨b, [], c + n, t ++ opTrace b msg (List.range' (c + 1) n)⟩ := by
  intro n
  induction n with
  | zero => intro c t hcn; simp [runOps, opTrace, List.range']
  | succ n ih =>
      intro c t hcn
      show runOps wr msg n ( Logger.LogOp wr (pureAct none) msg ⟨b, [], c, t⟩).2
        = ⟨b, [], c + (n + 1), t ++ opTrace b msg (List.range' (c + 1) (n + 1))⟩
      rw [LogOp_pure_none wr msg b c t (by omega)]
      show runOps wr msg n ⟨b, [], c + 1, t ++ opLines b msg (c + 1)⟩ = _
      rw [ih (c + 1) (t ++ opLines b msg (c + 1)) (by omega)]
      have hr : List.range' (c + 1) (n + 1) = (c + 1) :: List.range' (c + 2) n := rfl
      rw [hr]
      simp [opTrace, List.append_assoc]
      omega

/-- Iterating successful `LogOp` invocations preserves the backend and
the empty stack, and leaves the stored counter at `(c + n) % 2^64` —
the wrapping bookkeeping, with no bound on `n`. -/
theorem runOps_state (wr : WR) (msg : String) (b : BackendKind) :
    ∀ (n c : Nat) (t : List Line), c < 2 ^ 64 →
      (runOps wr msg n ⟨b, [], c, t⟩).ops = b
      ∧ (runOps wr msg n ⟨b, [], c, t⟩).prefixStack = []
      ∧ (runOps wr msg n ⟨b, [], c, t⟩).opSequenceNum = (c + n) % 2 ^ 64 := by
  intro n
  induction n with
  | zero => intro c t hc; exact ⟨rfl, rfl, (Nat.mod_eq_of_lt hc).symm⟩
  | succ n ih =>
      intro c t hc
      show (runOps wr msg n ( Logger.LogOp wr (pureAct none) msg ⟨b, [], c, t⟩).2).ops = b
        ∧ (runOps wr msg n ( Logger.LogOp wr (pureAct none) msg ⟨b, [], c, t⟩).2).prefixStack = []
        ∧ (runOps wr msg n ( Logger.LogOp wr (pureAct none) msg ⟨b, [], c, t⟩).2).opSequenceNum
            = (c + (n + 1)) % 2 ^ 64
      rw [LogOp_pure_none_wrap]
      obtain ⟨h1, h2, h3⟩ := ih ((c + 1) % 2 ^ 64) (t ++ opLinesW b msg ((c + 1) % 2 ^ 64))
        (Nat.mod_lt _ (by norm_num))
      refine ⟨h1, h2, ?_⟩
      rw [h3, Nat.mod_add_mod]
      congr 1
      omega

/-- `logStart` under one ambient prefix appends one info line. -/
theorem logStart_one (wr : WR) (msg : String) (b : BackendKind) (p : String)
    (c : Nat) (t : List Line) :
    Logger.logStart wr msg ⟨b, [p], c, t⟩
      = ⟨b, [p], c, t ++ [(b, Severity.info, p ++ ": [started]  " ++ msg)]⟩ := by
  simp only [Logger.logStart, Logger.Info, Logger.log, sprintf_one]
  simp [String.append_assoc]
  rfl

/-- `logFinish` under one ambient prefix appends one info line. -/
theorem logFinish_one (wr : WR) (msg : String) (b : BackendKind) (p : String)
    (c : Nat) (t : List Line) :
    Logger.logFinish wr msg ⟨b, [p], c, t⟩
      = ⟨b, [p], c, t ++ [(b, Severity.info, p ++ ": [finished] " ++ msg)]⟩ := by
  simp only [Logger.logFinish, Logger.Info, Logger.log, sprintf_one]
  simp [String.append_assoc]
  rfl

/-- `LogOp` unfolded one step on an explicit empty-stack logger. -/
theorem LogOp_unfold_nil (wr : WR) (act : Logger → Option String × Logger)
    (msg : String) (b : BackendKind) (c : Nat) (t : List Line) :
    Logger.LogOp wr act msg ⟨b, [], c, t⟩ =
      (match act ( Logger.logStart wr msg
          ⟨b, ["op(" ++ int64Hex ((c + 1) % 2 ^ 64) ++ ")"], (c + 1) % 2 ^ 64, t⟩) with
       | (some e, l4) =>
           (some e, Logger.PopPrefix wr ( Logger.logFail wr (msg ++ ": " ++ e) l4))
       | (none, l4) =>
           (none, Logger.PopPrefix wr ( Logger.logFinish wr msg l4))) := rfl

/-! ### Claim theorems -/

/-- C1: with prefix stack `[p, q]` (pushed in that order), a severity
call such as `Info` hands the backend exactly `p ++ ": " ++ q ++ ": " ++
msg` — every stack entry in push order suffixed with a colon, then the
expanded message, joined by single spaces — and records that very line. -/
theorem C1_severity_prefix_composition (wr : WR) (b : BackendKind) (p q msg : String)
    (c : Nat) (t : List Line) :
    Logger.Info wr msg ⟨b, [p, q], c, t⟩ =
      (wr b Severity.info (p ++ ": " ++ q ++ ": " ++ msg),
       ⟨b, [p, q], c, t ++ [(b, Severity.info, p ++ ": " ++ q ++ ": " ++ msg)]⟩) := by
  simp [Logger.Info, Logger.log, sprintf_two]

/-- C2: `LogOp` around a failing action emits exactly one started info
line and one critical `[failed]` line (no `[finished]` line), returns the
action's failure unchanged, and removes the synthetic `op(…)` prefix
(the final stack equals the initial one); the return value and the stack
restoration hold for every initial logger. -/
theorem C2_logOp_failure_protocol (wr : WR) (msg e : String) (b : BackendKind)
    (c : Nat) (t : List Line) (h : c + 1 < 2 ^ 63) :
    Logger.LogOp wr (pureAct (some e)) msg ⟨b, [], c, t⟩ =
      (some e, ⟨b, [], c + 1, t ++
        [(b, Severity.info, "op(" ++ toHex (c + 1) ++ "): [started]  " ++ msg),
         (b, Severity.crit, "op(" ++ toHex (c + 1) ++ "): [failed]   " ++ msg ++ ": " ++ e)]⟩)
    ∧ ∀ (l : Logger),
        ( Logger.LogOp wr (pureAct (some e)) msg l).1 = some e
        ∧ ( Logger.LogOp wr (pureAct (some e)) msg l).2.prefixStack = l.prefixStack := by
  refine ⟨?_, fun l => ⟨LogOp_pure_fst wr (some e) msg l, LogOp_pure_prefixStack wr (some e) msg l⟩⟩
  show (some e, Logger.PopPrefix wr ( Logger.logFail wr (msg ++ ": " ++ e)
      ( Logger.logStart wr msg
        ⟨b, ["op(" ++ int64Hex ((c + 1) % 2 ^ 64) ++ ")"], (c + 1) % 2 ^ 64, t⟩)))
    = _
  rw [wrap_eq_of_lt (c + 1) h, int64Hex_eq_toHex (c + 1) h]
  simp only [Logger.logStart, Logger.logFail, Logger.Info, Logger.Crit, Logger.log,
    Logger.PopPrefix, sprintf_one]
  simp [String.append_assoc, List.append_assoc]
  exact ⟨rfl, rfl⟩

/-- C2 witness: the failure protocol at a concrete input — counter 0,
message `"m"`, failing action `"x"`. -/
theorem C2_witness :
    0 + 1 < 2 ^ 63
    ∧ Logger.LogOp wrOk (pureAct (some "x")) "m" ⟨BackendKind.stdoutB, [], 0, []⟩ =
        (some "x", ⟨BackendKind.stdoutB, [], 0 + 1, [] ++
          [(BackendKind.stdoutB, Severity.info, "op(" ++ toHex (0 + 1) ++ "): [started]  " ++ "m"),
           (BackendKind.stdoutB, Severity.crit,
             "op(" ++ toHex (0 + 1) ++ "): [failed]   " ++ "m" ++ ": " ++ "x")]⟩) :=
  ⟨by norm_num, (C2_logOp_failure_protocol wrOk "m" "x" BackendKind.stdoutB 0 [] (by norm_num)).1⟩

/-- A successful `LogOp` on any empty-stack logger appends exactly the
wrap-aware started/finished pair for the incremented counter. -/
theorem LogOp_pure_none_trace (wr : WR) (msg : String) (l : Logger)
    (hs : l.prefixStack = []) :
    ( Logger.LogOp wr (pureAct none) msg l).2.trace
      = l.trace ++ opLinesW l.ops msg ((l.opSequenceNum + 1) % 2 ^ 64) := by
  obtain ⟨o, s, cnt, tr⟩ := l
  simp only at hs
  subst hs
  rw [LogOp_pure_none_wrap]

/-- C3 counterexample: from a fresh instance, the invocation numbered
`2^63` overflows the 64-bit counter, whose `%x` rendering is then the
negative form `-8000000000000000`; the lines that invocation writes
(`opLinesW … (2^63)`) therefore differ from the claimed ones carrying
the lowercase-hex rendering of `2^63` (`opLines … (2^63)`), so the ids
are not the hex renderings of `1..N` for every `N`. -/
theorem C3_counterexample :
    ( Logger.LogOp wrOk (pureAct none) "m"
        (runOps wrOk "m" (2 ^ 63 - 1) ⟨BackendKind.stdoutB, [], 0, []⟩)).2.trace
      = (runOps wrOk "m" (2 ^ 63 - 1) ⟨BackendKind.stdoutB, [], 0, []⟩).trace
          ++ opLinesW BackendKind.stdoutB "m" (2 ^ 63)
    ∧ opLinesW BackendKind.stdoutB "m" (2 ^ 63) ≠ opLines BackendKind.stdoutB "m" (2 ^ 63) := by
  constructor
  · obtain ⟨h1, h2, h3⟩ :=
      runOps_state wrOk "m" BackendKind.stdoutB (2 ^ 63 - 1) 0 [] (by norm_num)
    rw [LogOp_pure_none_trace wrOk "m" _ h2, h1, h3]
    norm_num
  · intro heq
    have hx : int64Hex (2 ^ 63) = "-" ++ toHex (2 ^ 63) := by
      unfold int64Hex
      rw [if_neg (by norm_num)]
      norm_num
    rw [opLinesW, opLines, hx] at heq
    simp only [List.cons.injEq, Prod.mk.injEq] at heq
    have hs := heq.1.2.2
    have hlen := congrArg String.length hs
    have hone : ("-" : String).length = 1 := rfl
    simp only [String.length_append, hone] at hlen
    omega

/-- C3 (amended): as long as the wrapping 64-bit counter does not
overflow — `n` below `2^63` — `n` wrapper invocations on one instance
write operation ids that are the lowercase-hex renderings of `1..n` in
order (the counter starts at 0 and advances exactly once per invocation,
ending at `n`), and the id list has no duplicates — no id is reused. -/
theorem C3_op_ids_increasing (wr : WR) (msg : String) (b : BackendKind)
    (n : Nat) (t : List Line) (h : n < 2 ^ 63) :
    runOps wr msg n ⟨b, [], 0, t⟩ = ⟨b, [], n, t ++ opTrace b msg (List.range' 1 n)⟩
    ∧ ((List.range' 1 n).map toHex).Nodup := by
  constructor
  · have hh := runOps_trace wr msg b n 0 t (by omega)
    simpa using hh
  · exact List.Nodup.map toHex_injective (List.nodup_range' 1 n)

/-- C3 witness: three invocations from a fresh instance write the pairs
for hex ids 1, 2, 3 in order. -/
theorem C3_witness :
    3 < 2 ^ 63
    ∧ runOps wrOk "m" 3 ⟨BackendKind.stdoutB, [], 0, []⟩
        = ⟨BackendKind.stdoutB, [], 3, [] ++ opTrace BackendKind.stdoutB "m" (List.range' 1 3)⟩ :=
  ⟨by norm_num, (C3_op_ids_increasing wrOk "m" BackendKind.stdoutB 3 [] (by norm_num)).1⟩

/-- C4: nested wrapper invocations — the inner call's lines carry both
op-id prefixes in outer-then-inner order, the inner prefix is pushed
after and popped before the outer one, and afterwards the stack is back
to its pre-call state; moreover the synthetic prefix is popped on every
exit path (success and failure) of a wrapper on any logger. -/
theorem C4_nested_wrappers (wr : WR) (msg1 msg2 : String) (b : BackendKind)
    (c : Nat) (t : List Line) (h : c + 2 < 2 ^ 63) :
    Logger.LogOp wr (fun l1 => Logger.LogOp wr (pureAct none) msg2 l1) msg1 ⟨b, [], c, t⟩ =
      (none, ⟨b, [], c + 2, t ++
        [(b, Severity.info, "op(" ++ toHex (c + 1) ++ "): [started]  " ++ msg1),
         (b, Severity.info,
           "op(" ++ toHex (c + 1) ++ "): op(" ++ toHex (c + 2) ++ "): [started]  " ++ msg2),
         (b, Severity.info,
           "op(" ++ toHex (c + 1) ++ "): op(" ++ toHex (c + 2) ++ "): [finished] " ++ msg2),
         (b, Severity.info, "op(" ++ toHex (c + 1) ++ "): [finished] " ++ msg1)]⟩)
    ∧ ∀ (r : Option String) (m : String) (l : Logger),
        ( Logger.LogOp wr (pureAct r) m l).2.prefixStack = l.prefixStack := by
  refine ⟨?_, fun r m l => LogOp_pure_prefixStack wr r m l⟩
  rw [LogOp_unfold_nil, wrap_eq_of_lt (c + 1) (by omega), int64Hex_eq_toHex (c + 1) (by omega),
    logStart_one, LogOp_pure_none_one wr msg2 b _ (c + 1) _ (by omega)]
  simp only [Logger.logFinish, Logger.Info, Logger.log, Logger.PopPrefix, sprintf_one]
  simp [String.append_assoc, List.append_assoc]
  rfl

/-- C4 witness: one nested invocation pair at a concrete input — outer
message `"o"`, inner message `"i"`, fresh counter. -/
theorem C4_witness :
    0 + 2 < 2 ^ 63
    ∧ Logger.LogOp wrOk (fun l1 => Logger.LogOp wrOk (pureAct none) "i" l1) "o"
        ⟨BackendKind.stdoutB, [], 0, []⟩ =
      (none, ⟨BackendKind.stdoutB, [], 0 + 2, [] ++
        [(BackendKind.stdoutB, Severity.info, "op(" ++ toHex (0 + 1) ++ "): [started]  " ++ "o"),
         (BackendKind.stdoutB, Severity.info,
           "op(" ++ toHex (0 + 1) ++ "): op(" ++ toHex (0 + 2) ++ "): [started]  " ++ "i"),
         (BackendKind.stdoutB, Severity.info,
           "op(" ++ toHex (0 + 1) ++ "): op(" ++ toHex (0 + 2) ++ "): [finished] " ++ "i"),
         (BackendKind.stdoutB, Severity.info, "op(" ++ toHex (0 + 1) ++ "): [finished] " ++ "o")]⟩) :=
  ⟨by norm_num, (C4_nested_wrappers wrOk "o" "i" BackendKind.stdoutB 0 [] (by norm_num)).1⟩

/-- C5: construction never fails. If the system-log open fails, the
console fallback is the resulting logger's backend and exactly one
error-severity line reporting the original failure was emitted through
the logger's own severity/prefix path — tagged with the console backend,
so the fallback was assigned before the report; on success the syslog
backend is used and nothing is emitted. -/
theorem C5_construction_fallback (wr : WR) (e : String) :
    New wr (some e) =
      ⟨BackendKind.stdoutB, [], 0,
       [(BackendKind.stdoutB, Severity.err, "unable to open syslog: " ++ e)]⟩
    ∧ New wr none = ⟨BackendKind.syslogB, [], 0, []⟩ := by
  exact ⟨rfl, rfl⟩

/-- C6 counterexample: the start marker is followed by two spaces and the
fail marker by three (column alignment), so the emitted strings differ
from the single-space forms the claim states. -/
theorem C6_counterexample :
    ( Logger.logStart wrOk "m" l0).trace
        = [(BackendKind.stdoutB, Severity.info, "[started]  m")]
    ∧ "[started]  m" ≠ "[started] " ++ "m"
    ∧ ( Logger.logFail wrOk "m" l0).trace
        = [(BackendKind.stdoutB, Severity.crit, "[failed]   m")]
    ∧ "[failed]   m" ≠ "[failed] " ++ "m" := by
  refine ⟨rfl, by decide, rfl, by decide⟩

/-- C6 amended: every wrapper message is the caller's expanded message
prefixed with its literal marker and alignment padding — `"[started]"`
followed by two spaces, `"[failed]"` by three, `"[finished]"` by one —
at info, critical and info severity respectively. -/
theorem C6_marker_padding (wr : WR) (msg : String) (b : BackendKind)
    (c : Nat) (t : List Line) :
    Logger.logStart wr msg ⟨b, [], c, t⟩
        = ⟨b, [], c, t ++ [(b, Severity.info, "[started]  " ++ msg)]⟩
    ∧ Logger.logFail wr msg ⟨b, [], c, t⟩
        = ⟨b, [], c, t ++ [(b, Severity.crit, "[failed]   " ++ msg)]⟩
    ∧ Logger.logFinish wr msg ⟨b, [], c, t⟩
        = ⟨b, [], c, t ++ [(b, Severity.info, "[finished] " ++ msg)]⟩ := by
  exact ⟨rfl, rfl, rfl⟩

/-- C7: popping an empty stack never fails, leaves the stack empty and
emits exactly one debug diagnostic; popping a non-empty stack removes
exactly the most recently pushed label and emits nothing. -/
theorem C7_pop_empty_and_nonempty (wr : WR) (b : BackendKind) (c : Nat)
    (t : List Line) (st : List String) (s : String) :
    Logger.PopPrefix wr ⟨b, [], c, t⟩
        = ⟨b, [], c, t ++ [(b, Severity.debug, "popped from empty stack")]⟩
    ∧ Logger.PopPrefix wr ⟨b, st ++ [s], c, t⟩ = ⟨b, st, c, t⟩ := by
  constructor
  · rfl
  · simp [Logger.PopPrefix]

/-- C10: the wrapper's return value is exactly the wrapped action's
result for every backend, so backend write failures are discarded; in
particular with a backend on which every write fails, a wrapper around a
succeeding action still returns success. -/
theorem C10_return_ignores_write_failures (wr : WR) (r : Option String)
    (msg : String) (l : Logger) :
    ( Logger.LogOp wr (pureAct r) msg l).1 = r
    ∧ ( Logger.LogOp wrFail (pureAct none) msg l).1 = none := by
  exact ⟨LogOp_pure_fst wr r msg l, LogOp_pure_fst wrFail none msg l⟩

/-- `LogCmd` on a command whose run fails returns the composite failure
string embedding the original error and the quoted captured streams. -/
theorem LogCmd_fail_fst (wr : WR) (msg : String) (l : Logger) (p : String)
    (as : List String) (so se e : String) :
    ( Logger.LogCmd wr ⟨p, as, so, se, some e⟩ msg l).1
      = some (e ++ ": Stdout: " ++ goQuote so ++ " Stderr: " ++ goQuote se) := rfl

/-- C8: on abnormal process exit the failure fed into the generic
protocol's failure branch — and returned — is the composite of the
original process failure and the quoted captured stdout and stderr; when
the process wrote `"out"` to stdout, that failure string contains the
literal text `"out"` alongside the process error. -/
theorem C8_subprocess_failure_composite (wr : WR) (msg : String) (l : Logger)
    (p : String) (as : List String) (so se e : String) :
    ( Logger.LogCmd wr ⟨p, as, so, se, some e⟩ msg l).1
        = some (e ++ ": Stdout: " ++ goQuote so ++ " Stderr: " ++ goQuote se)
    ∧ ∃ u v, ( Logger.LogCmd wr ⟨p, as, "out", se, some e⟩ msg l).1
        = some ((e ++ u) ++ "out" ++ v) := by
  refine ⟨LogCmd_fail_fst wr msg l p as so se e,
    ⟨": Stdout: \"", "\" Stderr: " ++ goQuote se, ?_⟩⟩
  rw [LogCmd_fail_fst]
  have hq : goQuote "out" = "\"" ++ "out" ++ "\"" := rfl
  rw [hq]
  simp [String.append_assoc]
  rfl

/-- C9: for any push/pop sequence in which no prefix pops more than was
pushed, the final prefix stack is the pushed labels minus the popped
ones in push order (each pop removing the most recently pushed surviving
label, per `stackSpec`), and no diagnostics are emitted nor any other
logger state touched. -/
theorem C9_push_pop_lifo (wr : WR) :
    ∀ (seq : List PP) (l : Logger),
      balancedFrom seq l.prefixStack.length = true →
      (runPP wr seq l).prefixStack = stackSpec seq l.prefixStack
      ∧ (runPP wr seq l).trace = l.trace
      ∧ (runPP wr seq l).opSequenceNum = l.opSequenceNum
      ∧ (runPP wr seq l).ops = l.ops := by
  intro seq
  induction seq with
  | nil => intro l h; exact ⟨rfl, rfl, rfl, rfl⟩
  | cons a rest ih =>
      cases a with
      | push s =>
          intro l h
          have h' : balancedFrom rest ( Logger.PushPrefix s l).prefixStack.length = true := by
            simpa [Logger.PushPrefix] using h
          exact ih ( Logger.PushPrefix s l) h'
      | pop =>
          intro l h
          have hb : 0 < l.prefixStack.length
              ∧ balancedFrom rest (l.prefixStack.length - 1) = true := by
            simpa [balancedFrom, Bool.and_eq_true] using h
          have hne : l.prefixStack.isEmpty = false := by
            rw [List.isEmpty_eq_false]
            intro hnil
            rw [hnil] at hb
            exact absurd hb.1 (by simp)
          have hpop : Logger.PopPrefix wr l
              = { l with prefixStack := l.prefixStack.dropLast } := by
            simp [Logger.PopPrefix, hne]
          have h' : balancedFrom rest
              ({ l with prefixStack := l.prefixStack.dropLast } : Logger).prefixStack.length
              = true := by
            simpa [List.length_dropLast] using hb.2
          simp only [runPP, stackSpec]
          rw [hpop]
          exact ih { l with prefixStack := l.prefixStack.dropLast } h'

/-- C9 witness: a concrete balanced sequence — push `"a"`, push `"b"`,
pop — on a fresh logger ends with stack `["a"]`. -/
theorem C9_witness :
    balancedFrom [PP.push "a", PP.push "b", PP.pop] l0.prefixStack.length = true
    ∧ (runPP wrOk [PP.push "a", PP.push "b", PP.pop] l0).prefixStack
        = stackSpec [PP.push "a", PP.push "b", PP.pop] l0.prefixStack
    ∧ stackSpec [PP.push "a", PP.push "b", PP.pop] l0.prefixStack = ["a"] := by
  refine ⟨by decide, ?_, by decide⟩
  exact (C9_push_pop_lifo wrOk [PP.push "a", PP.push "b", PP.pop] l0 (by decide)).1
